import Mathlib

/-!
Verification of the Soniox n8n node (`soniox/n8n-nodes-soniox`).

This file gives a shallow embedding of the pure logic of the node
(`src/unnamed/part_001`, the current variant of `Soniox.node.ts`): the
JavaScript values the node manipulates, the helper functions
(`redactWebhookAuthHeaderValue`, `normalizeLanguageHints`,
`parseStructuredContext`, `extractErrorDetails`, ...), the request-body
assembly of the `create` operation, the completion poll loop, and the
best-effort cleanup path.  Interaction with the outside world (HTTP
responses, the wall clock, `JSON.parse`) is passed in as explicit oracle
arguments, so every definition is executable and every run of the embedded
code corresponds to a run of the source with the same external inputs.
-/

namespace Soniox

/-- Model of a JavaScript/JSON value as the node sees it (`IDataObject`
values, request bodies, API responses).  Objects are ordered key/value
lists, matching JS insertion order. -/
inductive JValue : Type where
  | null
  | bool (b : Bool)
  | num (n : Int)
  | str (s : String)
  | arr (elems : List JValue)
  | obj (fields : List (String × JValue))

/-- Property lookup on an object's field list (first match, as JS keys are
unique). -/
def getField : List (String × JValue) → String → Option JValue
  | [], _ => none
  | (k, v) :: rest, key => if k = key then some v else getField rest key

/-- JS property assignment `o[key] = v`: replace in place when the key
exists, append otherwise. -/
def setField : List (String × JValue) → String → JValue → List (String × JValue)
  | [], key, v => [(key, v)]
  | (k, w) :: rest, key, v =>
      if k = key then (k, v) :: rest else (k, w) :: setField rest key v

/-- JS property access `value.key` on an arbitrary value: `undefined`
(`none`) unless the value is an object with that own property. -/
def getProp (v : JValue) (key : String) : Option JValue :=
  match v with
  | .obj fields => getField fields key
  | _ => none

/-- JS truthiness of a value. -/
def truthy : JValue → Bool
  | .null => false
  | .bool b => b
  | .num n => n != 0
  | .str s => s != ""
  | .arr _ => true
  | .obj _ => true

/-- Truthiness of a possibly-`undefined` value. -/
def truthyOpt : Option JValue → Bool
  | some v => truthy v
  | none => false

/-- Whitespace characters stripped by JS `String.prototype.trim` (the ASCII
part of the Unicode white-space set, which covers the codes the node ever
meets). -/
def jsWhitespace (c : Char) : Bool :=
  c == ' ' || c == '\t' || c == '\n' || c == '\r' || c == '\x0b' || c == '\x0c'

/-- Model of JS `String.prototype.trim`: strip leading and trailing
whitespace. -/
def jsTrim (s : String) : String :=
  String.mk (((s.data.dropWhile jsWhitespace).reverse.dropWhile jsWhitespace).reverse)

/-- Embedding of `isNonEmptyString`: a string whose trim is non-empty
(`typeof value === 'string' && value.trim() !== ''`). -/
def isNonEmptyString : JValue → Bool
  | .str s => jsTrim s != ""
  | _ => false

/-- Overriding step of the JS spread `{...data, webhook_auth_header_value:
'[REDACTED]'}`: the entry with that key gets the placeholder value, every
other entry is copied as is, and insertion order is kept. -/
def redactEntry (kv : String × JValue) : String × JValue :=
  if kv.1 = "webhook_auth_header_value" then (kv.1, .str "[REDACTED]") else kv

/-- Embedding of `redactWebhookAuthHeaderValue` (src/unnamed/part_001
lines 30-38): if the object has an own `webhook_auth_header_value`
property, return a copy (JS spread) with that property set to
`"[REDACTED]"`; otherwise return the input itself unchanged. -/
def redactWebhookAuthHeaderValue (data : JValue) : JValue :=
  match data with
  | .obj fields =>
      if (getField fields "webhook_auth_header_value").isSome then
        .obj (fields.map redactEntry)
      else .obj fields
  | other => other

/-- Embedding of `normalizeLanguageHints` (src/unnamed/part_001 lines
63-74): read `input.languages`, keep each entry's `code` when it is a
string with non-empty trim, preserving order.  The final `filterMap`
realises the `string[]` type of the filtered result. -/
def normalizeLanguageHints (input : JValue) : List String :=
  match input with
  | .obj fields =>
      match getField fields "languages" with
      | some (.arr languages) =>
          (((languages.map (fun e => getProp e "code")).filter
              (fun o => match o with | some v => isNonEmptyString v | none => false)).filterMap
            (fun o => match o with | some (.str s) => some s | _ => none))
      | _ => []
  | _ => []

/-- Specification-side description of the language-hint normalisation,
written from the spec's words for comparison with the code-shaped
`normalizeLanguageHints`: exactly the entries whose `code` is a string
that is non-empty after trimming survive, in order, unaltered. -/
def languageHintsSpec (languages : List JValue) : List String :=
  languages.filterMap (fun e =>
    match getProp e "code" with
    | some (.str s) => if jsTrim s = "" then none else some s
    | _ => none)

/-! ### Completion poller (src/unnamed/part_001 `pollForCompletion`, lines
274-332) -/
mutual

/-- Stringification used by JS template literals for values the node
interpolates (`${statusResponse.error_message}`, `${status}`): array
elements are joined with commas and a null element renders empty, as in
`Array.prototype.toString`. -/
def jsToString : JValue → String
  | .null => "null"
  | .bool true => "true"
  | .bool false => "false"
  | .num n => toString n
  | .str s => s
  | .arr xs => jsToStringArr xs
  | .obj _ => "[object Object]"

/-- Comma-joined rendering of array elements (`Array.prototype.join`). -/
def jsToStringArr : List JValue → String
  | [] => ""
  | [.null] => ""
  | [x] => jsToString x
  | .null :: rest => "," ++ jsToStringArr rest
  | x :: rest => jsToString x ++ "," ++ jsToStringArr rest

end

/-- Tests `statusResponse?.status === s` for a literal status string. -/
def statusIs (resp : JValue) (s : String) : Bool :=
  match getProp resp "status" with
  | some (.str t) => t == s
  | _ => false

/-- Message of the job-failed error thrown when the fetched status is
`"error"`: the server-supplied `error_message` is appended when truthy. -/
def jobFailedMessage (resp : JValue) : String :=
  "Transcription failed with status \"error\"" ++
    (match getProp resp "error_message" with
     | some v => if truthy v then ": " ++ jsToString v else ""
     | none => "")

/-- Suffix `` (last status: ...)`` of the timeout message, present only when
the last-seen status value is truthy. -/
def lastStatusText (st : Option JValue) : String :=
  match st with
  | some v => if truthy v then " (last status: " ++ jsToString v ++ ")" else ""
  | none => ""

/-- Message of the timeout error: the raw configured `maxWaitSec` plus the
last-seen status. -/
def timeoutMessage (maxWaitSec : Nat) (st : Option JValue) : String :=
  "Polling timed out after " ++ toString maxWaitSec ++ " seconds" ++ lastStatusText st

/-- Outcome of the poll loop: `break` with the final status response and
the fetched transcript, or one of the two thrown errors. -/
inductive PollResult : Type where
  | completed (statusResp : JValue) (transcript : JValue)
  | jobFailed (message : String)
  | timedOut (message : String)

/-- External world of one poll run: the response of the i-th status GET,
the `Date.now()` reading at the i-th deadline check, and the response of
the final transcript GET.  Status requests are modelled as succeeding;
a transport failure would abort the loop by rethrow and is outside these
claims. -/
structure PollEnv where
  fetchStatus : Nat → JValue
  clock : Nat → Nat
  transcript : JValue

/-- One iteration of the `while (true)` loop of `pollForCompletion`, in
source order: terminal-status checks first, the deadline check only after
them, else sleep and repeat.  `fuel` bounds the number of iterations we
unroll (the source loop has no bound; `none` means the run needs more
fuel), `i` counts the iterations already done. -/
def pollLoopAux (env : PollEnv) (timeoutAt maxWaitSec : Nat) : Nat → Nat → Option PollResult
  | 0, _ => none
  | fuel + 1, i =>
    let resp := env.fetchStatus i
    if statusIs resp "completed" then some (.completed resp env.transcript)
    else if statusIs resp "error" then some (.jobFailed (jobFailedMessage resp))
    else if env.clock i > timeoutAt then
      some (.timedOut (timeoutMessage maxWaitSec (getProp resp "status")))
    else pollLoopAux env timeoutAt maxWaitSec fuel (i + 1)

/-- Embedding of `pollForCompletion` (src/unnamed/part_001 lines 274-332):
the deadline is computed once at entry as `Date.now() + max(1, maxWaitSec)
* 1000`; the poll delay (`max(1, pollIntervalSec) * 1000`) only drives the
cancellable sleep, whose passage of time the `clock` oracle records. -/
def pollForCompletion (env : PollEnv) (t0 pollIntervalSec maxWaitSec fuel : Nat) :
    Option PollResult :=
  let timeoutAt := t0 + (max 1 maxWaitSec) * 1000
  let pollDelay := (max 1 pollIntervalSec) * 1000
  let _ := pollDelay
  pollLoopAux env timeoutAt maxWaitSec fuel 0

/-- Poll environment whose job completes on the very first fetch while the
clock is already far past any deadline. -/
def pollEnvDone : PollEnv :=
  ⟨fun _ => .obj [("status", .str "completed")], fun _ => 999999999, .obj [("text", .str "hi")]⟩

/-- Poll environment whose job reports a terminal error on the first fetch. -/
def pollEnvErr : PollEnv :=
  ⟨fun _ => .obj [("status", .str "error"), ("error_message", .str "bad audio")],
   fun _ => 999999999, .null⟩

/-- Poll environment that stays in `"processing"` while the clock jumps past
the deadline at once. -/
def pollEnvStuck : PollEnv :=
  ⟨fun _ => .obj [("status", .str "processing")], fun _ => 10000, .null⟩

/-! ### Error extraction (src/unnamed/part_001 `extractErrorDetails`,
lines 129-161, and the rethrow in `sonioxApiRequest`, lines 163-195) -/
/-- Shape of `error.cause.error` on a raised API error (`SonioxApiError`
in the source; absent fields are `none`). -/
structure ErrCauseError where
  message : Option String := none
  detail : Option String := none
  code : Option String := none

/-- Shape of `error.cause`. -/
structure ErrCause where
  message : Option String := none
  code : Option String := none
  error : Option ErrCauseError := none

/-- Shape of `error.response.body`. -/
structure ErrBody where
  message : Option String := none
  detail : Option String := none
  error : Option String := none
  code : Option String := none

/-- Shape of `error.response`. -/
structure ErrResponse where
  statusCode : Option Nat := none
  body : Option ErrBody := none

/-- Shape of the error value caught around an HTTP request (the source's
`SonioxApiError` interface). -/
structure SonioxApiError where
  message : Option String := none
  description : Option String := none
  httpCode : Option Nat := none
  cause : Option ErrCause := none
  response : Option ErrResponse := none

/-- JS truthiness of a possibly-undefined string: the empty string is
falsy. -/
def strTruthy : Option String → Bool
  | some s => s != ""
  | none => false

/-- JS `a || b` on possibly-undefined numbers: `0` and `undefined` are
falsy. -/
def jsOrNat (a b : Option Nat) : Option Nat :=
  match a with
  | some n => if n != 0 then some n else b
  | none => b

/-- JS `a || b` on possibly-undefined strings: `""` and `undefined` are
falsy. -/
def jsOrStr (a b : Option String) : Option String :=
  match a with
  | some s => if s != "" then some s else b
  | none => b

/-- Extracted data of an API failure: best-effort message, HTTP status
code, application error code. -/
structure ErrorDetails where
  message : String
  statusCode : Option Nat
  errorCode : Option String

/-- Embedding of `extractErrorDetails` (src/unnamed/part_001 lines
129-161): the message comes from the first truthy probe of the nested
`if`/`else if` chain, the status code from `httpCode ||
response?.statusCode`, the error code from the `||` chain over the three
nested code fields. -/
def extractErrorDetails (error : SonioxApiError) : ErrorDetails :=
  let statusCode := jsOrNat error.httpCode (error.response.bind ErrResponse.statusCode)
  let errorCode := jsOrStr ((error.cause.bind ErrCause.error).bind ErrCauseError.code)
    (jsOrStr (error.cause.bind ErrCause.code)
      (jsOrStr ((error.response.bind ErrResponse.body).bind ErrBody.code) none))
  let detail :=
    if strTruthy ((error.cause.bind ErrCause.error).bind ErrCauseError.detail) then
      ((error.cause.bind ErrCause.error).bind ErrCauseError.detail).getD ""
    else if strTruthy ((error.cause.bind ErrCause.error).bind ErrCauseError.message) then
      ((error.cause.bind ErrCause.error).bind ErrCauseError.message).getD ""
    else if strTruthy ((error.response.bind ErrResponse.body).bind ErrBody.detail) then
      ((error.response.bind ErrResponse.body).bind ErrBody.detail).getD ""
    else if strTruthy ((error.response.bind ErrResponse.body).bind ErrBody.message) then
      ((error.response.bind ErrResponse.body).bind ErrBody.message).getD ""
    else if strTruthy ((error.response.bind ErrResponse.body).bind ErrBody.error) then
      ((error.response.bind ErrResponse.body).bind ErrBody.error).getD ""
    else if strTruthy error.description then
      error.description.getD ""
    else if strTruthy error.message then
      error.message.getD ""
    else ""
  ⟨detail, statusCode, errorCode⟩

/-- Probe table written from the spec's words: the claimed priority order
of message probes, to be compared with the code-shaped
`extractErrorDetails`. -/
def errorProbes (error : SonioxApiError) : List (Option String) :=
  [(error.cause.bind ErrCause.error).bind ErrCauseError.detail,
   (error.cause.bind ErrCause.error).bind ErrCauseError.message,
   (error.response.bind ErrResponse.body).bind ErrBody.detail,
   (error.response.bind ErrResponse.body).bind ErrBody.message,
   (error.response.bind ErrResponse.body).bind ErrBody.error,
   error.description,
   error.message]

/-- First truthy value of a probe list, or `""` when none is. -/
def firstTruthy : List (Option String) → String
  | [] => ""
  | o :: rest => if strTruthy o then o.getD "" else firstTruthy rest

/-- Message of the `NodeOperationError` rethrown by `sonioxApiRequest`
(src/unnamed/part_001 lines 184-189): the extracted message when present,
else a generic `(HTTP <code>)` form when a truthy status code is known,
else the bare prefix. -/
def sonioxErrorMessage (error : SonioxApiError) : String :=
  let d := extractErrorDetails error
  if d.message != "" then "Soniox API error: " ++ d.message
  else
    match d.statusCode with
    | some c => if c != 0 then "Soniox API error (HTTP " ++ toString c ++ ")"
                else "Soniox API error"
    | none => "Soniox API error"

/-- API failure carrying only an HTTP status code, no message anywhere. -/
def apiError503 : SonioxApiError := { httpCode := some 503 }

/-! ### Credential test (src/unnamed/part_001, `SonioxApi.test`, lines
1496-1511) -/
/-- One declarative `responseCode` rule of a credential test request. -/
structure CredTestRule where
  value : Nat
  message : String

/-- Method of the credential test request declared in the source. -/
def sonioxCredentialTestMethod : String := "GET"

/-- Path of the credential test request declared in the source. -/
def sonioxCredentialTestUrl : String := "/v1/transcriptions/credential-test"

/-- The single `responseCode` rule declared in the source. -/
def sonioxCredentialTestRule : CredTestRule :=
  { value := 404, message := "Authentication failed. Verify your Soniox API key." }

/-- Outcome of a credential test as reported to the user. -/
inductive CredTestOutcome : Type where
  | success
  | badCredentials (message : String)
deriving DecidableEq

/-- Modelled from the spec: the interpretation of the declarative
credential-test rule is performed by the host workflow engine, whose code
is not part of this repository; the spec fixes the boundary contract as
"a 404 response is treated as proof of successful authentication (by
contract with the remote service), any other failure indicates bad
credentials", reported with the declared rule message. -/
def runCredentialTest (rule : CredTestRule) (statusCode : Nat) : CredTestOutcome :=
  if statusCode = rule.value then .success
  else if 200 ≤ statusCode ∧ statusCode < 300 then .success
  else .badCredentials rule.message

/-! ### Best-effort cleanup (src/unnamed/part_001 `tryDeleteResource` and
`deleteResources`, lines 342-397, and the create-with-wait tail of
`execute`, lines 1240-1288) -/
/-- Result of a completed poll: the last status response and the fetched
transcript. -/
structure TranscriptResult where
  status : JValue
  transcript : JValue

/-- Embedding of `tryDeleteResource`: `outcome` is the DELETE call's
failure, if any (`none` when it succeeded); a failure turns into a warning
string built from the extracted message, `"Unknown error"` when that is
empty. -/
def tryDeleteResource (outcome : Option SonioxApiError) (what : String) : Option String :=
  match outcome with
  | none => none
  | some e =>
      let m := (extractErrorDetails e).message
      some ("Failed to delete " ++ what ++ ": " ++ (if m != "" then m else "Unknown error"))

/-- Embedding of the source's `DeleteResult`. -/
structure DeleteResult where
  deletedTranscription : Option String
  deletedFile : Option String
  warnings : List String

/-- Embedding of `deleteResources`: try the transcription first, then the
file, each only when its id is truthy; each failure contributes one
warning, each success records the deleted id. -/
def deleteResources (transcriptionId fileId : Option String)
    (errT errF : Option SonioxApiError) : DeleteResult :=
  let r1 : DeleteResult :=
    if strTruthy transcriptionId then
      match tryDeleteResource errT ("transcription " ++ transcriptionId.getD "") with
      | some w => ⟨none, none, [w]⟩
      | none => ⟨transcriptionId, none, []⟩
    else ⟨none, none, []⟩
  if strTruthy fileId then
    match tryDeleteResource errF ("file " ++ fileId.getD "") with
    | some w => ⟨r1.deletedTranscription, r1.deletedFile, r1.warnings ++ [w]⟩
    | none => ⟨r1.deletedTranscription, fileId, r1.warnings⟩
  else r1

/-- Text-only output shape `{ text: result.transcript?.text ?? '' }` (the
nullish coalescing maps both a missing and a null `text` to `""`). -/
def textOnlyOutput (transcript : JValue) : JValue :=
  .obj [("text",
    match getProp transcript "text" with
    | some .null => .str ""
    | some v => v
    | none => .str "")]

/-- JS property assignment on an arbitrary value; on a non-object it is a
no-op at the value level. -/
def jsSetProp (v : JValue) (key : String) (val : JValue) : JValue :=
  match v with
  | .obj fields => .obj (setField fields key val)
  | other => other

/-- Embedding of the tail of the create-with-wait path (src/unnamed/
part_001 lines 1249-1288): the poll outcome is caught, cleanup runs when
auto-delete is on (collecting warnings), a caught poll error is re-raised
after cleanup, and on success the shaped output gets `_deleteWarnings`
attached when any deletion failed.  The second component records the
`deleteResources` call (and result) when cleanup was attempted. -/
def createWaitTail (pollOutcome : Except String TranscriptResult)
    (autoDelete : Bool) (audioSource : String) (transcriptionId : String)
    (fileId : Option String) (errT errF : Option SonioxApiError)
    (outputMode : String) : Except String JValue × Option DeleteResult :=
  let fileIdToDelete := if audioSource = "binary" then fileId else none
  let dres := if autoDelete then
      some (deleteResources (some transcriptionId) fileIdToDelete errT errF)
    else none
  let deleteWarnings := match dres with | some r => r.warnings | none => []
  match pollOutcome with
  | .error e => (.error e, dres)
  | .ok result =>
      let output := if outputMode = "textOnly" then textOnlyOutput result.transcript
        else redactWebhookAuthHeaderValue result.transcript
      let jsonOutput := if 0 < deleteWarnings.length then
          jsSetProp output "_deleteWarnings" (.arr (deleteWarnings.map JValue.str))
        else output
      (.ok jsonOutput, dres)

/-- Transcript used in the C2 witness. -/
def trWitness : TranscriptResult := ⟨.null, .obj [("text", .str "t")]⟩

/-- Transcription-delete failure used in the C2 witness. -/
def errTWitness : Option SonioxApiError := some { httpCode := some 500 }

/-- File-delete failure used in the C2 witness. -/
def errFWitness : Option SonioxApiError := some {}

/-! ### Create-operation body assembly (src/unnamed/part_001, `execute`,
lines 1001-1213, with `parseStructuredContext` lines 40-61 and the tail of
`uploadFile` lines 253-272) -/
/-- Per-item configuration of the `create` operation, as resolved from the
node parameters (all string-typed parameters arrive as strings, the JSON
and fixed-collection ones as values). -/
structure CreateConfig where
  audioSource : String
  audioUrl : String
  fileId : String
  model : String
  languageHints : JValue
  languageHintsStrict : Bool
  enableLanguageIdentification : Bool
  enableSpeakerDiarization : Bool
  contextMode : String
  contextText : String
  contextJson : JValue
  clientReferenceId : String
  webhookUrl : String
  webhookAuthHeaderName : String
  webhookAuthHeaderValue : String
  translationType : String
  targetLanguage : String
  languageA : String
  languageB : String

/-- Embedding of the tail of `uploadFile`: `uploadResponse` is the parsed
upload response (`none` when the response could not be read as an object);
without a truthy `id` the upload fails, else the id is returned. -/
def uploadFile (uploadResponse : Option JValue) : Except String JValue :=
  match uploadResponse with
  | some r =>
      match getProp r "id" with
      | some idv =>
          if truthy idv then .ok idv else .error "File upload did not return a file ID"
      | none => .error "File upload did not return a file ID"
  | none => .error "File upload did not return a file ID"

/-- Embedding of the audio-source branches of `execute` (lines 1014-1040):
exactly one of the returned pair is populated by a branch, each branch
validating its own input (the binary branch takes the upload outcome). -/
def resolveAudioSource (cfg : CreateConfig) (upload : Except String JValue) :
    Except String (Option String × Option JValue) :=
  if cfg.audioSource = "binary" then
    match upload with
    | .error m => .error m
    | .ok idv => .ok (none, some idv)
  else if cfg.audioSource = "url" then
    if isNonEmptyString (.str cfg.audioUrl) then .ok (some cfg.audioUrl, none)
    else .error "Audio URL is required"
  else if cfg.audioSource = "fileId" then
    if isNonEmptyString (.str cfg.fileId) then .ok (none, some (.str cfg.fileId))
    else .error "File ID is required"
  else .error ("Unsupported audio source: " ++ cfg.audioSource)

/-- Embedding of the mutual-exclusion guard of `execute` (lines 1042-1050):
`(audioUrl && fileId) || (!audioUrl && !fileId)` fails with the validation
error before any create call. -/
def checkAudio (audioUrl : Option String) (fileId : Option JValue) : Except String Unit :=
  if (strTruthy audioUrl && truthyOpt fileId) || (!strTruthy audioUrl && !truthyOpt fileId)
  then .error "Provide exactly one audio source (audio URL or file ID)"
  else .ok ()

/-- Message of the `ApplicationError` thrown when a structured context
string parses to something other than a JSON object. -/
def contextTypeErrorMessage : String :=
  "Context must be a JSON object, not an array or primitive"

/-- Embedding of `parseStructuredContext` (lines 40-61).  `jsonParse` is
the `JSON.parse` builtin as an oracle (its exception carries the message);
a falsy value yields no context, an already-parsed non-array object is
taken as is (empty means none), a string is trimmed and parsed and must
parse to a JSON object (the non-object parse results are spelled out arm
by arm), and any other value yields no context. -/
def parseStructuredContext (jsonParse : String → Except String JValue) (value : JValue) :
    Except String (Option JValue) :=
  if truthy value then
    match value with
    | .obj fields => .ok (if fields.length != 0 then some (.obj fields) else none)
    | .str s =>
        if jsTrim s = "" then .ok none
        else
          match jsonParse (jsTrim s) with
          | .error m => .error m
          | .ok (.obj pf) => .ok (if pf.length != 0 then some (.obj pf) else none)
          | .ok .null => .error contextTypeErrorMessage
          | .ok (.bool b) => .error contextTypeErrorMessage
          | .ok (.num n) => .error contextTypeErrorMessage
          | .ok (.str s2) => .error contextTypeErrorMessage
          | .ok (.arr xs) => .error contextTypeErrorMessage
    | .null => .ok none
    | .bool b => .ok none
    | .num n => .ok none
    | .arr xs => .ok none
  else .ok none

/-- Embedding of the context-mode dispatch of `execute` (lines 1075-1092):
text mode passes a non-empty trimmed text through, structured mode parses
and wraps any failure in the `Invalid context:` validation error. -/
def resolveContext (cfg : CreateConfig) (jsonParse : String → Except String JValue) :
    Except String (Option JValue) :=
  if cfg.contextMode = "text" then
    .ok (if isNonEmptyString (.str cfg.contextText) then some (.str cfg.contextText) else none)
  else if cfg.contextMode = "structured" then
    match parseStructuredContext jsonParse cfg.contextJson with
    | .ok c => .ok c
    | .error m => .error ("Invalid context: " ++ m)
  else .ok none

/-- Embedding of the translation branches of `execute` (lines 1169-1205). -/
def resolveTranslation (cfg : CreateConfig) : Except String (Option JValue) :=
  if cfg.translationType = "one_way" then
    if isNonEmptyString (.str cfg.targetLanguage) then
      .ok (some (.obj [("type", .str "one_way"),
                       ("target_language", .str cfg.targetLanguage)]))
    else .error "Target language is required for one-way translation"
  else if cfg.translationType = "two_way" then
    if isNonEmptyString (.str cfg.languageA) && isNonEmptyString (.str cfg.languageB) then
      .ok (some (.obj [("type", .str "two_way"),
                       ("language_a", .str cfg.languageA),
                       ("language_b", .str cfg.languageB)]))
    else .error "Language A and Language B are required for two-way translation"
  else .ok none

/-- One conditionally-present body field (`if (...) body.k = v`). -/
def condField (b : Bool) (k : String) (v : JValue) : List (String × JValue) :=
  if b then [(k, v)] else []

/-- Embedding of the context field conditions of `execute` (lines
1145-1151): a string context is sent when its trim is non-empty, an
object-typed context (JS `typeof 'object'`, which includes arrays) when it
has keys; null and primitives are never sent. -/
def contextField (context : Option JValue) : List (String × JValue) :=
  match context with
  | some (.str s) => condField (isNonEmptyString (.str s)) "context" (.str s)
  | some (.obj f) => condField (f.length != 0) "context" (.obj f)
  | some (.arr xs) => condField (xs.length != 0) "context" (.arr xs)
  | _ => []

/-- The `translation` body field, present when a translation was resolved. -/
def translationField (translation : Option JValue) : List (String × JValue) :=
  match translation with
  | some t => [("translation", t)]
  | none => []

/-- Embedding of the body construction of `execute` (lines 1117-1205), in
source field order. -/
def buildCreateBody (cfg : CreateConfig) (audioUrl : Option String) (fileId : Option JValue)
    (hints : List String) (context translation : Option JValue) :
    List (String × JValue) :=
  [("model", .str cfg.model)]
  ++ condField (strTruthy audioUrl) "audio_url" (.str (audioUrl.getD ""))
  ++ condField (truthyOpt fileId) "file_id" (fileId.getD .null)
  ++ condField (hints.length != 0) "language_hints" (.arr (hints.map JValue.str))
  ++ condField cfg.languageHintsStrict "language_hints_strict" (.bool true)
  ++ condField cfg.enableLanguageIdentification "enable_language_identification" (.bool true)
  ++ condField cfg.enableSpeakerDiarization "enable_speaker_diarization" (.bool true)
  ++ contextField context
  ++ condField (isNonEmptyString (.str cfg.clientReferenceId)) "client_reference_id"
       (.str cfg.clientReferenceId)
  ++ condField (isNonEmptyString (.str cfg.webhookUrl)) "webhook_url" (.str cfg.webhookUrl)
  ++ condField (isNonEmptyString (.str cfg.webhookAuthHeaderName)) "webhook_auth_header_name"
       (.str cfg.webhookAuthHeaderName)
  ++ condField (isNonEmptyString (.str cfg.webhookAuthHeaderValue)) "webhook_auth_header_value"
       (.str cfg.webhookAuthHeaderValue)
  ++ translationField translation

/-- Embedding of the create-operation parameter assembly (lines 1001-1213):
model check, audio-source resolution, the exactly-one guard, context and
translation validation, then the body that the create POST would send. -/
def assembleCreateBody (cfg : CreateConfig) (uploadResponse : Option JValue)
    (jsonParse : String → Except String JValue) :
    Except String (List (String × JValue)) :=
  if isNonEmptyString (.str cfg.model) then
    match resolveAudioSource cfg (uploadFile uploadResponse) with
    | .error m => .error m
    | .ok (audioUrl, fileId) =>
        match checkAudio audioUrl fileId with
        | .error m => .error m
        | .ok _ =>
            match resolveContext cfg jsonParse with
            | .error m => .error m
            | .ok context =>
                match resolveTranslation cfg with
                | .error m => .error m
                | .ok translation =>
                    .ok (buildCreateBody cfg audioUrl fileId
                      (normalizeLanguageHints cfg.languageHints) context translation)
  else .error "Model is required"

/-- Test for an own body field. -/
def hasF (fields : List (String × JValue)) (key : String) : Bool :=
  (getField fields key).isSome

/-- Configuration with a URL audio source and all optional fields left at
their defaults. -/
def cfgUrlOnly : CreateConfig :=
  { audioSource := "url", audioUrl := "https://example.com/a.wav", fileId := "",
    model := "stt-async-v3", languageHints := .null, languageHintsStrict := false,
    enableLanguageIdentification := false, enableSpeakerDiarization := false,
    contextMode := "text", contextText := "", contextJson := .null,
    clientReferenceId := "", webhookUrl := "", webhookAuthHeaderName := "",
    webhookAuthHeaderValue := "", translationType := "none", targetLanguage := "",
    languageA := "", languageB := "" }

/-- A `JSON.parse` oracle for runs that never reach it. -/
def jsonParseUnused : String → Except String JValue :=
  fun _ => .error "SyntaxError: Unexpected token"

/-- Configuration supplying the structured context as an already-parsed
JSON array value. -/
def cfgArrayContext : CreateConfig :=
  { audioSource := "url", audioUrl := "https://example.com/a.wav", fileId := "",
    model := "stt-async-v3", languageHints := .null, languageHintsStrict := false,
    enableLanguageIdentification := false, enableSpeakerDiarization := false,
    contextMode := "structured", contextText := "",
    contextJson := .arr [.num 1, .num 2, .num 3],
    clientReferenceId := "", webhookUrl := "", webhookAuthHeaderName := "",
    webhookAuthHeaderValue := "", translationType := "none", targetLanguage := "",
    languageA := "", languageB := "" }

/-- Configuration supplying the structured context as the string
`"[1,2,3]"`. -/
def cfgStrArrayContext : CreateConfig :=
  { audioSource := "url", audioUrl := "https://example.com/a.wav", fileId := "",
    model := "stt-async-v3", languageHints := .null, languageHintsStrict := false,
    enableLanguageIdentification := false, enableSpeakerDiarization := false,
    contextMode := "structured", contextText := "",
    contextJson := .str "[1,2,3]",
    clientReferenceId := "", webhookUrl := "", webhookAuthHeaderName := "",
    webhookAuthHeaderValue := "", translationType := "none", targetLanguage := "",
    languageA := "", languageB := "" }

/-- The `JSON.parse` oracle on the run that parses `"[1,2,3]"`. -/
def jsonParseArr : String → Except String JValue :=
  fun _ => .ok (.arr [.num 1, .num 2, .num 3])

/-! ### Lemmas about object field lists -/
theorem redactEntry_hit (k : String) (v : JValue) (h : k = "webhook_auth_header_value") :
    redactEntry (k, v) = (k, .str "[REDACTED]") := by
  simp [redactEntry, h]

theorem redactEntry_miss (k : String) (v : JValue) (h : k ≠ "webhook_auth_header_value") :
    redactEntry (k, v) = (k, v) := by
  simp [redactEntry, h]

theorem getField_map_redact_self (fields : List (String × JValue))
    (h : (getField fields "webhook_auth_header_value").isSome) :
    getField (fields.map redactEntry) "webhook_auth_header_value"
      = some (.str "[REDACTED]") := by
  induction fields with
  | nil => simp [getField] at h
  | cons kv rest ih =>
      obtain ⟨k', v'⟩ := kv
      by_cases hk : k' = "webhook_auth_header_value"
      · rw [List.map_cons, redactEntry_hit k' v' hk, getField, if_pos hk]
      · have h' : (getField rest "webhook_auth_header_value").isSome := by
          simpa [getField, hk] using h
        rw [List.map_cons, redactEntry_miss k' v' hk, getField, if_neg hk]
        exact ih h'

theorem getField_map_redact_other (fields : List (String × JValue)) (k : String)
    (hk : k ≠ "webhook_auth_header_value") :
    getField (fields.map redactEntry) k = getField fields k := by
  induction fields with
  | nil => simp [getField]
  | cons kv rest ih =>
      obtain ⟨k', v'⟩ := kv
      by_cases hr : k' = "webhook_auth_header_value"
      · have hne : ¬ k' = k := fun h => hk (h ▸ hr)
        rw [List.map_cons, redactEntry_hit k' v' hr, getField, if_neg hne, getField,
          if_neg hne]
        exact ih
      · rw [List.map_cons, redactEntry_miss k' v' hr, getField, getField]
        by_cases he : k' = k
        · rw [if_pos he, if_pos he]
        · rw [if_neg he, if_neg he]; exact ih

theorem keys_map_redact (fields : List (String × JValue)) :
    (fields.map redactEntry).map Prod.fst = fields.map Prod.fst := by
  induction fields with
  | nil => rfl
  | cons kv rest ih =>
      obtain ⟨k', v'⟩ := kv
      by_cases hr : k' = "webhook_auth_header_value"
      · rw [List.map_cons, redactEntry_hit k' v' hr]; simp [ih]
      · rw [List.map_cons, redactEntry_miss k' v' hr]; simp [ih]

/-- C5: on an object that owns `webhook_auth_header_value`, redaction
produces an object whose `webhook_auth_header_value` is `"[REDACTED]"`,
whose every other key maps to the same value as in the input, and whose
key order is unchanged (the input, being a pure value here, is untouched);
on an object lacking that key, redaction returns the very same object. -/
theorem redact_spec (fields : List (String × JValue)) :
    ((getField fields "webhook_auth_header_value").isSome →
      ∃ fields', redactWebhookAuthHeaderValue (.obj fields) = .obj fields' ∧
        getField fields' "webhook_auth_header_value" = some (.str "[REDACTED]") ∧
        (∀ k, k ≠ "webhook_auth_header_value" → getField fields' k = getField fields k) ∧
        fields'.map Prod.fst = fields.map Prod.fst) ∧
    (¬ (getField fields "webhook_auth_header_value").isSome →
      redactWebhookAuthHeaderValue (.obj fields) = .obj fields) := by
  constructor
  · intro h
    refine ⟨_, ?_, getField_map_redact_self fields h,
      fun k hk => getField_map_redact_other fields k hk, keys_map_redact fields⟩
    simp [redactWebhookAuthHeaderValue, h]
  · intro h
    simp [redactWebhookAuthHeaderValue, Bool.not_eq_true] at h ⊢
    simp [h]

/-- C5 witness: a concrete object with the secret is redacted with its other
field intact, and a concrete object without the key is returned unchanged. -/
theorem redact_spec_witness :
    (∃ fields',
      redactWebhookAuthHeaderValue
        (.obj [("a", .num 1), ("webhook_auth_header_value", .str "secret")]) = .obj fields' ∧
      getField fields' "webhook_auth_header_value" = some (.str "[REDACTED]") ∧
      getField fields' "a" = some (.num 1)) ∧
    redactWebhookAuthHeaderValue (.obj [("a", .num 1)]) = .obj [("a", .num 1)] := by
  refine ⟨?_, ?_⟩
  · obtain ⟨f', hf, hred, hother, _⟩ :=
      (redact_spec [("a", .num 1), ("webhook_auth_header_value", .str "secret")]).1 (by decide)
    exact ⟨f', hf, hred, by rw [hother "a" (by decide)]; rfl⟩
  · exact (redact_spec [("a", .num 1)]).2 (by decide)

/-- C10: redaction is shallow.  If the top level of an object lacks
`webhook_auth_header_value`, the object is returned unchanged, and in
particular any nested sub-object that contains that key keeps its secret
value intact in the result. -/
theorem redact_shallow (fields : List (String × JValue))
    (h : getField fields "webhook_auth_header_value" = none) :
    redactWebhookAuthHeaderValue (.obj fields) = .obj fields ∧
    ∀ k sub secret, getField fields k = some (.obj sub) →
      getField sub "webhook_auth_header_value" = some secret →
      ∃ fields', redactWebhookAuthHeaderValue (.obj fields) = .obj fields' ∧
        getField fields' k = some (.obj sub) ∧
        getField sub "webhook_auth_header_value" = some secret := by
  have hid : redactWebhookAuthHeaderValue (.obj fields) = .obj fields := by
    simp [redactWebhookAuthHeaderValue, h]
  exact ⟨hid, fun k sub secret hk hs => ⟨fields, hid, hk, hs⟩⟩

/-- C10 witness: a nested secret survives redaction untouched when the top
level lacks the key. -/
theorem redact_shallow_witness :
    redactWebhookAuthHeaderValue
        (.obj [("inner", .obj [("webhook_auth_header_value", .str "secret")])])
      = .obj [("inner", .obj [("webhook_auth_header_value", .str "secret")])] :=
  (redact_shallow [("inner", .obj [("webhook_auth_header_value", .str "secret")])] rfl).1

/-! ### Language hints (C6) -/
theorem hints_map_filter_eq_spec (languages : List JValue) :
    (((languages.map (fun e => getProp e "code")).filter
        (fun o => match o with | some v => isNonEmptyString v | none => false)).filterMap
      (fun o => match o with | some (.str s) => some s | _ => none))
      = languageHintsSpec languages := by
  induction languages with
  | nil => rfl
  | cons e rest ih =>
      simp only [languageHintsSpec, List.map, List.filterMap] at *
      match hv : getProp e "code" with
      | none => simpa [List.filter, hv] using ih
      | some (.str s) =>
          by_cases hs : jsTrim s = ""
          · have : isNonEmptyString (.str s) = false := by
              simp [isNonEmptyString, hs]
            simpa [List.filter, hv, this, hs] using ih
          · have : isNonEmptyString (.str s) = true := by
              simp [isNonEmptyString, hs]
            simpa [List.filter, hv, this, hs] using ih
      | some .null => simpa [List.filter, hv, isNonEmptyString] using ih
      | some (.bool b) => simpa [List.filter, hv, isNonEmptyString] using ih
      | some (.num n) => simpa [List.filter, hv, isNonEmptyString] using ih
      | some (.arr xs) => simpa [List.filter, hv, isNonEmptyString] using ih
      | some (.obj fs) => simpa [List.filter, hv, isNonEmptyString] using ih

/-- C6: for every language-hints input whose `languages` member is a list,
the normalised codes are exactly the entries whose `code` is a string with
non-empty trim, in their original relative order and textually unaltered. -/
theorem normalizeLanguageHints_spec (fields : List (String × JValue))
    (languages : List JValue)
    (h : getField fields "languages" = some (.arr languages)) :
    normalizeLanguageHints (.obj fields) = languageHintsSpec languages := by
  rw [normalizeLanguageHints, h]
  exact hints_map_filter_eq_spec languages

/-- C6 witness: whitespace-only and non-string codes are dropped, order and
text of the rest are preserved. -/
theorem normalizeLanguageHints_spec_witness :
    normalizeLanguageHints (.obj [("languages",
        .arr [.obj [("code", .str "en")], .obj [("code", .str "  ")],
              .obj [("code", .str " fr")], .obj [("code", .num 3)], .obj []])])
      = ["en", " fr"] := by
  rw [normalizeLanguageHints_spec
    [("languages",
      .arr [.obj [("code", .str "en")], .obj [("code", .str "  ")],
            .obj [("code", .str " fr")], .obj [("code", .num 3)], .obj []])]
    [.obj [("code", .str "en")], .obj [("code", .str "  ")],
     .obj [("code", .str " fr")], .obj [("code", .num 3)], .obj []] rfl]
  decide

theorem pollLoopAux_timeout (env : PollEnv) (timeoutAt maxWaitSec : Nat) :
    ∀ (n i fuel : Nat), n < fuel →
    (∀ k, k ≤ n → statusIs (env.fetchStatus (i + k)) "completed" = false ∧
                  statusIs (env.fetchStatus (i + k)) "error" = false) →
    (∀ k, k < n → env.clock (i + k) ≤ timeoutAt) →
    env.clock (i + n) > timeoutAt →
    pollLoopAux env timeoutAt maxWaitSec fuel i =
      some (.timedOut (timeoutMessage maxWaitSec
        (getProp (env.fetchStatus (i + n)) "status"))) := by
  intro n
  induction n with
  | zero =>
      intro i fuel hfuel hterm _ hnow
      obtain ⟨hc, he⟩ := hterm 0 (Nat.le_refl 0)
      rw [Nat.add_zero] at hc he hnow
      match fuel, hfuel with
      | fuel + 1, _ =>
        simp only [pollLoopAux]
        simp [hc, he, hnow]
  | succ n ih =>
      intro i fuel hfuel hterm hpre hnow
      obtain ⟨hc, he⟩ := hterm 0 (Nat.zero_le _)
      have hnotover : ¬ env.clock (i + 0) > timeoutAt := by
        have := hpre 0 (Nat.succ_pos n)
        omega
      match fuel, hfuel with
      | fuel + 1, hfuel =>
        simp only [pollLoopAux]
        rw [Nat.add_zero] at hc he hnotover
        simp only [hc, he, Bool.false_eq_true, if_false, if_neg hnotover]
        have hshift : ∀ k, i + 1 + k = i + (k + 1) := by intro k; omega
        have hres := ih (i + 1) fuel (by omega)
          (fun k hk => by rw [hshift k]; exact hterm (k + 1) (by omega))
          (fun k hk => by rw [hshift k]; exact hpre (k + 1) (by omega))
          (by rw [hshift n]; exact hnow)
        rw [hres, hshift n]

/-- C3: when no fetched status is terminal and the wall clock first
exceeds the deadline (computed once at loop entry as now plus max-wait)
at iteration `n`, the poll loop fails with the timeout error, and its
message contains the configured max-wait in seconds and the last-seen
status string. -/
theorem pollTimeout_message (env : PollEnv)
    (t0 pollIntervalSec maxWaitSec n fuel : Nat)
    (hfuel : n < fuel)
    (hterm : ∀ k, k ≤ n → statusIs (env.fetchStatus k) "completed" = false ∧
                          statusIs (env.fetchStatus k) "error" = false)
    (hpre : ∀ k, k < n → env.clock k ≤ t0 + (max 1 maxWaitSec) * 1000)
    (hnow : env.clock n > t0 + (max 1 maxWaitSec) * 1000) :
    pollForCompletion env t0 pollIntervalSec maxWaitSec fuel =
      some (.timedOut (timeoutMessage maxWaitSec
        (getProp (env.fetchStatus n) "status"))) ∧
    ∀ s, getProp (env.fetchStatus n) "status" = some (.str s) → s ≠ "" →
      ∃ pre mid post,
        timeoutMessage maxWaitSec (getProp (env.fetchStatus n) "status") =
          pre ++ toString maxWaitSec ++ mid ++ s ++ post := by
  constructor
  · have h := pollLoopAux_timeout env (t0 + (max 1 maxWaitSec) * 1000) maxWaitSec
      n 0 fuel hfuel
      (fun k hk => by simpa using hterm k hk)
      (fun k hk => by simpa using hpre k hk)
      (by simpa using hnow)
    simpa [pollForCompletion] using h
  · intro s hs hns
    refine ⟨"Polling timed out after ", " seconds (last status: ", ")", ?_⟩
    rw [hs]
    have htr : truthy (.str s) = true := by
      simp [truthy, hns]
    simp only [timeoutMessage, lastStatusText, htr, if_true, jsToString]
    apply String.ext
    simp only [String.data_append, List.append_assoc, List.cons_append, List.nil_append]

/-- C9: the terminal-status checks come before the deadline check.  With
any clock whatsoever (so even one already past the deadline) a first fetch
of `"completed"` yields the transcript result and a first fetch of
`"error"` yields the job-failed error, using a single status request; and
a timeout can only arise from an iteration whose fetched status was
non-terminal. -/
theorem pollTerminal_first (env : PollEnv) (t0 pollIntervalSec maxWaitSec fuel : Nat) :
    (statusIs (env.fetchStatus 0) "completed" = true →
      pollForCompletion env t0 pollIntervalSec maxWaitSec (fuel + 1) =
        some (.completed (env.fetchStatus 0) env.transcript)) ∧
    (statusIs (env.fetchStatus 0) "completed" = false →
      statusIs (env.fetchStatus 0) "error" = true →
      pollForCompletion env t0 pollIntervalSec maxWaitSec (fuel + 1) =
        some (.jobFailed (jobFailedMessage (env.fetchStatus 0)))) ∧
    (∀ fuel2 i msg,
      pollLoopAux env (t0 + (max 1 maxWaitSec) * 1000) maxWaitSec fuel2 i =
        some (.timedOut msg) →
      ∃ m, statusIs (env.fetchStatus m) "completed" = false ∧
           statusIs (env.fetchStatus m) "error" = false ∧
           env.clock m > t0 + (max 1 maxWaitSec) * 1000 ∧
           msg = timeoutMessage maxWaitSec (getProp (env.fetchStatus m) "status")) := by
  refine ⟨?_, ?_, ?_⟩
  · intro hc
    simp [pollForCompletion, pollLoopAux, hc]
  · intro hc he
    simp [pollForCompletion, pollLoopAux, hc, he]
  · intro fuel2
    induction fuel2 with
    | zero => intro i msg h; simp [pollLoopAux] at h
    | succ fuel2 ih =>
        intro i msg h
        by_cases hc : statusIs (env.fetchStatus i) "completed" = true
        · simp [pollLoopAux, hc] at h
        · by_cases he : statusIs (env.fetchStatus i) "error" = true
          · simp [pollLoopAux, hc, he] at h
          · by_cases hover : env.clock i > t0 + (max 1 maxWaitSec) * 1000
            · simp only [pollLoopAux, Bool.not_eq_true] at h
              rw [if_neg, if_neg, if_pos hover] at h
              · obtain rfl : timeoutMessage maxWaitSec
                    (getProp (env.fetchStatus i) "status") = msg := by
                  simpa using h
                exact ⟨i, by simpa using hc, by simpa using he, hover, rfl⟩
              · simpa using he
              · simpa using hc
            · simp only [pollLoopAux, Bool.not_eq_true] at h
              rw [if_neg, if_neg, if_neg hover] at h
              · exact ih (i + 1) msg h
              · simpa using he
              · simpa using hc

/-- C9 witness: with the clock far past the deadline, a completed first
fetch still returns the transcript and an errored first fetch still raises
the job error (with the server message appended), after exactly one
iteration of fuel; and a concrete timed-out run is traced back to a
non-terminal iteration. -/
theorem pollTerminal_first_witness :
    pollForCompletion pollEnvDone 0 1 1 1 =
      some (.completed (.obj [("status", .str "completed")]) (.obj [("text", .str "hi")])) ∧
    pollForCompletion pollEnvErr 0 1 1 1 =
      some (.jobFailed "Transcription failed with status \"error\": bad audio") ∧
    ∃ m, statusIs (pollEnvStuck.fetchStatus m) "completed" = false ∧
         statusIs (pollEnvStuck.fetchStatus m) "error" = false ∧
         pollEnvStuck.clock m > 0 + (max 1 2) * 1000 ∧
         "Polling timed out after 2 seconds (last status: processing)" =
           timeoutMessage 2 (getProp (pollEnvStuck.fetchStatus m) "status") := by
  refine ⟨(pollTerminal_first pollEnvDone 0 1 1 0).1 rfl,
    (pollTerminal_first pollEnvErr 0 1 1 0).2.1 rfl rfl,
    (pollTerminal_first pollEnvStuck 0 1 2 0).2.2 1 0
      "Polling timed out after 2 seconds (last status: processing)" rfl⟩

/-- C3 witness: all statuses `"processing"` and the deadline (max-wait 2s)
exceeded at the first check: the run times out with a message carrying
both the max-wait and the last status. -/
theorem pollTimeout_message_witness :
    pollForCompletion pollEnvStuck 0 1 2 1 =
      some (.timedOut "Polling timed out after 2 seconds (last status: processing)") ∧
    ∃ pre mid post,
      ("Polling timed out after 2 seconds (last status: processing)" : String) =
        pre ++ "2" ++ mid ++ "processing" ++ post := by
  have h := pollTimeout_message pollEnvStuck 0 1 2 0 1 (by omega)
    (fun k _ => ⟨rfl, rfl⟩)
    (fun k hk => absurd hk (Nat.not_lt_zero k))
    (by decide)
  exact ⟨h.1, h.2 "processing" rfl (by decide)⟩

/-- C7: the extracted human-readable message equals the first truthy probe
of exactly the claimed priority order (cause.error.detail,
cause.error.message, response.body.detail, response.body.message,
response.body.error, description, message); and when no probe yields a
message but a status code is available, the raised error message is the
generic form containing `(HTTP <code>)`. -/
theorem extract_error_priority (e : SonioxApiError) :
    (extractErrorDetails e).message = firstTruthy (errorProbes e) ∧
    ((extractErrorDetails e).message = "" →
      ∀ c, (extractErrorDetails e).statusCode = some c → c ≠ 0 →
        sonioxErrorMessage e = "Soniox API error (HTTP " ++ toString c ++ ")" ∧
        ∃ pre post, sonioxErrorMessage e = pre ++ "(HTTP " ++ toString c ++ ")" ++ post) := by
  constructor
  · rfl
  · intro hm c hsc hc
    have hmsg : sonioxErrorMessage e = "Soniox API error (HTTP " ++ toString c ++ ")" := by
      have hne : ((extractErrorDetails e).message != "") = false := by
        simp [hm]
      have hcne : (c != 0) = true := by
        simpa using hc
      simp only [sonioxErrorMessage, hne, Bool.false_eq_true, if_false, hsc, hcne, if_true]
    refine ⟨hmsg, "Soniox API error ", "", ?_⟩
    rw [hmsg]
    apply String.ext
    simp only [String.data_append, List.append_assoc, List.cons_append, List.nil_append,
      List.append_nil]

/-- C7 witness: with every probe absent and status 503, the rethrown
message is the generic HTTP form. -/
theorem extract_error_priority_witness :
    sonioxErrorMessage apiError503 = "Soniox API error (HTTP 503)" :=
  ((extract_error_priority apiError503).2 rfl 503 rfl (by decide)).1

/-- C8: the credential test issues GET `/v1/transcriptions/credential-test`
and, under the spec's boundary contract for rule interpretation, exactly an
HTTP 404 among failure responses counts as successful authentication; any
other failure status is reported as bad credentials with the declared
message. -/
theorem credential_test_spec :
    sonioxCredentialTestMethod = "GET" ∧
    sonioxCredentialTestUrl = "/v1/transcriptions/credential-test" ∧
    sonioxCredentialTestRule.value = 404 ∧
    runCredentialTest sonioxCredentialTestRule 404 = .success ∧
    ∀ c, ¬ (200 ≤ c ∧ c < 300) → c ≠ 404 →
      runCredentialTest sonioxCredentialTestRule c =
        .badCredentials "Authentication failed. Verify your Soniox API key." := by
  refine ⟨rfl, rfl, rfl, rfl, ?_⟩
  intro c hno2xx h404
  simp [runCredentialTest, sonioxCredentialTestRule, h404, hno2xx]

/-- C8 witness: a 401 failure is reported as bad credentials with the
declared message. -/
theorem credential_test_spec_witness :
    runCredentialTest sonioxCredentialTestRule 401 =
      .badCredentials "Authentication failed. Verify your Soniox API key." :=
  credential_test_spec.2.2.2.2 401 (by omega) (by omega)

theorem getField_setField_self (fields : List (String × JValue)) (key : String) (v : JValue) :
    getField (setField fields key v) key = some v := by
  induction fields with
  | nil => simp [setField, getField]
  | cons kv rest ih =>
      obtain ⟨k', w⟩ := kv
      by_cases hk : k' = key
      · simp [setField, getField, hk]
      · simp [setField, getField, hk, ih]

theorem getField_setField_other (fields : List (String × JValue)) (key : String) (v : JValue)
    (k : String) (h : k ≠ key) :
    getField (setField fields key v) k = getField fields k := by
  induction fields with
  | nil =>
      have hne : ¬ key = k := fun he => h he.symm
      simp [setField, getField, hne]
  | cons kv rest ih =>
      obtain ⟨k', w⟩ := kv
      by_cases hk : k' = key
      · subst hk
        have hne : ¬ k' = k := fun he => h he.symm
        simp [setField, getField, hne]
      · by_cases he : k' = k
        · subst he
          simp [setField, getField, hk]
        · simp [setField, getField, hk, he, ih]

theorem redact_obj (fields : List (String × JValue)) :
    ∃ rf, redactWebhookAuthHeaderValue (.obj fields) = .obj rf := by
  by_cases h : (getField fields "webhook_auth_header_value").isSome
  · exact ⟨fields.map redactEntry, by simp [redactWebhookAuthHeaderValue, h]⟩
  · exact ⟨fields, by simp [redactWebhookAuthHeaderValue, h]⟩

theorem createWaitTail_ok_full_eq (tr : TranscriptResult) (audioSource tid : String)
    (fileId : Option String) (errT errF : Option SonioxApiError) :
    createWaitTail (.ok tr) true audioSource tid fileId errT errF "full"
      = (.ok (if 0 < (deleteResources (some tid)
                (if audioSource = "binary" then fileId else none) errT errF).warnings.length
              then jsSetProp (redactWebhookAuthHeaderValue tr.transcript) "_deleteWarnings"
                     (.arr ((deleteResources (some tid)
                       (if audioSource = "binary" then fileId else none)
                       errT errF).warnings.map JValue.str))
              else redactWebhookAuthHeaderValue tr.transcript),
         some (deleteResources (some tid)
           (if audioSource = "binary" then fileId else none) errT errF)) := by
  simp [createWaitTail]

theorem deleteResources_warnings_length (tid : String) (htid : tid ≠ "")
    (fid : Option String) (errT errF : Option SonioxApiError) :
    (deleteResources (some tid) fid errT errF).warnings.length =
      (if errT.isSome = true then 1 else 0) +
      (if strTruthy fid = true ∧ errF.isSome = true then 1 else 0) := by
  have hT : strTruthy (some tid) = true := by simp [strTruthy, htid]
  cases errT <;> cases errF <;> by_cases hf : strTruthy fid = true <;>
    simp [deleteResources, tryDeleteResource, hT, hf]

/-- C2: for the create-with-wait path with auto-delete enabled, a
successful poll yields a success output whose fields other than
`_deleteWarnings` are those of the (redacted) transcript, with a
`_deleteWarnings` array equal to the collected warnings when any deletion
failed, one warning per failed deletion (the file deletion only counts
when the audio source was an uploaded binary with a truthy id); a failed
poll re-raises exactly the original poll error after the cleanup attempt
(recorded in the second component whenever auto-delete is on), and its
cleanup warnings are attached to no output. -/
theorem createWaitTail_spec (tr : TranscriptResult) (tfields : List (String × JValue))
    (hobj : tr.transcript = .obj tfields)
    (audioSource tid : String) (htid : tid ≠ "")
    (fileId : Option String) (errT errF : Option SonioxApiError) (e : String) :
    (∃ out, createWaitTail (.ok tr) true audioSource tid fileId errT errF "full"
        = (.ok out,
           some (deleteResources (some tid)
             (if audioSource = "binary" then fileId else none) errT errF)) ∧
      (∀ k, k ≠ "_deleteWarnings" →
        getProp out k = getProp (redactWebhookAuthHeaderValue tr.transcript) k) ∧
      ((deleteResources (some tid)
          (if audioSource = "binary" then fileId else none) errT errF).warnings ≠ [] →
        getProp out "_deleteWarnings"
          = some (.arr ((deleteResources (some tid)
              (if audioSource = "binary" then fileId else none) errT errF).warnings.map
                JValue.str))) ∧
      (deleteResources (some tid)
          (if audioSource = "binary" then fileId else none) errT errF).warnings.length =
        (if errT.isSome = true then 1 else 0) +
        (if strTruthy (if audioSource = "binary" then fileId else none) = true ∧
            errF.isSome = true then 1 else 0)) ∧
    (∀ autoDelete mode,
      (createWaitTail (.error e) autoDelete audioSource tid fileId errT errF mode).1
        = .error e ∧
      (createWaitTail (.error e) autoDelete audioSource tid fileId errT errF mode).2
        = (if autoDelete then
            some (deleteResources (some tid)
              (if audioSource = "binary" then fileId else none) errT errF)
          else none)) := by
  constructor
  · obtain ⟨rfields, hrf⟩ := redact_obj tfields
    have hrt : redactWebhookAuthHeaderValue tr.transcript = .obj rfields := by
      rw [hobj, hrf]
    refine ⟨_, createWaitTail_ok_full_eq tr audioSource tid fileId errT errF, ?_, ?_,
      deleteResources_warnings_length tid htid _ errT errF⟩
    · intro k hk
      by_cases hw : 0 < (deleteResources (some tid)
          (if audioSource = "binary" then fileId else none) errT errF).warnings.length
      · rw [if_pos hw, hrt, jsSetProp]
        simp [getProp, getField_setField_other _ _ _ _ hk]
      · rw [if_neg hw]
    · intro hne
      have hw : 0 < (deleteResources (some tid)
          (if audioSource = "binary" then fileId else none) errT errF).warnings.length :=
        List.length_pos.mpr hne
      rw [if_pos hw, hrt, jsSetProp]
      simp [getProp, getField_setField_self]
  · intro autoDelete mode
    exact ⟨rfl, rfl⟩

/-- C2 witness: with both deletions failing, the success path still emits
the transcript with a two-entry `_deleteWarnings`, and the failure path
re-raises the original poll error. -/
theorem createWaitTail_spec_witness :
    (∃ out, createWaitTail (.ok trWitness) true "binary" "id1" (some "f1")
        errTWitness errFWitness "full"
        = (.ok out, some (deleteResources (some "id1") (some "f1")
            errTWitness errFWitness)) ∧
      getProp out "_deleteWarnings"
        = some (.arr [.str "Failed to delete transcription id1: Unknown error",
                      .str "Failed to delete file f1: Unknown error"]) ∧
      getProp out "text" = some (.str "t") ∧
      (deleteResources (some "id1") (some "f1") errTWitness errFWitness).warnings.length
        = 2) ∧
    (createWaitTail (.error "poll boom") true "binary" "id1" (some "f1")
        errTWitness errFWitness "full").1 = .error "poll boom" := by
  constructor
  · obtain ⟨out, heq, hpres, hatt, hlen⟩ :=
      (createWaitTail_spec trWitness [("text", .str "t")] rfl "binary" "id1" (by decide)
        (some "f1") errTWitness errFWitness "unused").1
    refine ⟨out, heq, ?_, ?_, hlen⟩
    · exact hatt (by decide)
    · rw [hpres "text" (by decide)]
      rfl
  · exact ((createWaitTail_spec trWitness [("text", .str "t")] rfl "binary" "id1" (by decide)
      (some "f1") errTWitness errFWitness "poll boom").2 true "full").1

theorem getField_append (l1 l2 : List (String × JValue)) (k : String) :
    getField (l1 ++ l2) k =
      match getField l1 k with
      | some v => some v
      | none => getField l2 k := by
  induction l1 with
  | nil => simp [getField]
  | cons kv rest ih =>
      obtain ⟨k', v⟩ := kv
      by_cases h : k' = k
      · simp [getField, h]
      · simp [getField, h, ih]

theorem hasF_append (l1 l2 : List (String × JValue)) (k : String) :
    hasF (l1 ++ l2) k = (hasF l1 k || hasF l2 k) := by
  rw [hasF, getField_append]
  cases h : getField l1 k <;> simp [hasF, h]

theorem getField_condField (b : Bool) (k2 : String) (v : JValue) (k : String) :
    getField (condField b k2 v) k =
      if b = true ∧ k2 = k then some v else none := by
  cases b
  · simp [condField, getField]
  · by_cases h : k2 = k <;> simp [condField, getField, h]

theorem hasF_condField (b : Bool) (k2 : String) (v : JValue) (k : String) :
    hasF (condField b k2 v) k = (b && decide (k2 = k)) := by
  rw [hasF, getField_condField]
  by_cases h : k2 = k <;> cases b <;> simp [h]

theorem getField_contextField_ne (c : Option JValue) (k : String) (h : ¬ ("context" = k)) :
    getField (contextField c) k = none := by
  match c with
  | none => simp [contextField, getField]
  | some .null => simp [contextField, getField]
  | some (.bool b) => simp [contextField, getField]
  | some (.num n) => simp [contextField, getField]
  | some (.str s) => simp [contextField, getField_condField, h]
  | some (.obj f) => simp [contextField, getField_condField, h]
  | some (.arr xs) => simp [contextField, getField_condField, h]

theorem getField_translationField_ne (t : Option JValue) (k : String)
    (h : ¬ ("translation" = k)) :
    getField (translationField t) k = none := by
  cases t <;> simp [translationField, getField, h]

theorem hasF_of_getField_none (l : List (String × JValue)) (k : String)
    (h : getField l k = none) : hasF l k = false := by
  simp [hasF, h]

theorem hasF_buildCreateBody_audio (cfg : CreateConfig) (a : Option String)
    (f : Option JValue) (hints : List String) (c t : Option JValue) :
    hasF (buildCreateBody cfg a f hints c t) "audio_url" = strTruthy a := by
  cases ha : strTruthy a <;>
    simp [buildCreateBody, hasF, getField_append, getField_condField, ha,
      getField_contextField_ne c "audio_url" (by decide),
      getField_translationField_ne t "audio_url" (by decide), getField]

theorem hasF_buildCreateBody_file (cfg : CreateConfig) (a : Option String)
    (f : Option JValue) (hints : List String) (c t : Option JValue) :
    hasF (buildCreateBody cfg a f hints c t) "file_id" = truthyOpt f := by
  cases hf : truthyOpt f <;>
    simp [buildCreateBody, hasF, getField_append, getField_condField, hf,
      getField_contextField_ne c "file_id" (by decide),
      getField_translationField_ne t "file_id" (by decide), getField]

theorem getField_buildCreateBody_context (cfg : CreateConfig) (a : Option String)
    (f : Option JValue) (hints : List String) (c t : Option JValue) :
    getField (buildCreateBody cfg a f hints c t) "context"
      = getField (contextField c) "context" := by
  cases hc : getField (contextField c) "context" <;>
    simp [buildCreateBody, getField_append, getField_condField, hc,
      getField_translationField_ne t "context" (by decide), getField]

theorem checkAudio_ok (a : Option String) (f : Option JValue)
    (h : checkAudio a f = .ok ()) :
    (strTruthy a = true ∧ truthyOpt f = false) ∨
    (strTruthy a = false ∧ truthyOpt f = true) := by
  cases h1 : strTruthy a <;> cases h2 : truthyOpt f
  · rw [checkAudio, h1, h2] at h; simp at h
  · exact Or.inr ⟨rfl, rfl⟩
  · exact Or.inl ⟨rfl, rfl⟩
  · rw [checkAudio, h1, h2] at h; simp at h

theorem assembleCreateBody_ok (cfg : CreateConfig) (upl : Option JValue)
    (jp : String → Except String JValue) (body : List (String × JValue))
    (h : assembleCreateBody cfg upl jp = .ok body) :
    ∃ a f c t, resolveAudioSource cfg (uploadFile upl) = .ok (a, f) ∧
      checkAudio a f = .ok () ∧ resolveContext cfg jp = .ok c ∧
      resolveTranslation cfg = .ok t ∧
      body = buildCreateBody cfg a f (normalizeLanguageHints cfg.languageHints) c t := by
  rw [assembleCreateBody] at h
  split at h
  · split at h
    · simp at h
    · rename_i a f heq
      split at h
      · simp at h
      · rename_i u heq2
        split at h
        · simp at h
        · rename_i c heq3
          split at h
          · simp at h
          · rename_i t heq4
            simp only [Except.ok.injEq] at h
            exact ⟨a, f, c, t, heq, by cases u; exact heq2, heq3, heq4, h.symm⟩
  · simp at h

/-- C1: every body the create operation would send carries exactly one of
`audio_url` and `file_id`; and whenever both or neither of the resolved
audio values is populated (truthy), the exactly-one guard fails with the
validation error, so no create call is issued. -/
theorem create_body_exactly_one_source :
    (∀ (cfg : CreateConfig) (uploadResponse : Option JValue)
       (jsonParse : String → Except String JValue) (body : List (String × JValue)),
      assembleCreateBody cfg uploadResponse jsonParse = .ok body →
      ((hasF body "audio_url" = true ∧ hasF body "file_id" = false) ∨
       (hasF body "audio_url" = false ∧ hasF body "file_id" = true))) ∧
    (∀ (a : Option String) (f : Option JValue),
      ((strTruthy a = true ∧ truthyOpt f = true) ∨
       (strTruthy a = false ∧ truthyOpt f = false)) →
      checkAudio a f = .error "Provide exactly one audio source (audio URL or file ID)") := by
  constructor
  · intro cfg upl jp body h
    obtain ⟨a, f, c, t, hra, hchk, hctx, htl, hbody⟩ :=
      assembleCreateBody_ok cfg upl jp body h
    subst hbody
    rw [hasF_buildCreateBody_audio, hasF_buildCreateBody_file]
    exact checkAudio_ok a f hchk
  · intro a f h
    rcases h with ⟨h1, h2⟩ | ⟨h1, h2⟩ <;> simp [checkAudio, h1, h2]

/-- C1 witness: the URL-only configuration assembles a body with
`audio_url` and without `file_id`, and the guard rejects the
neither-populated case. -/
theorem create_body_exactly_one_source_witness :
    (∃ body, assembleCreateBody cfgUrlOnly none jsonParseUnused = .ok body ∧
      hasF body "audio_url" = true ∧ hasF body "file_id" = false) ∧
    checkAudio none none =
      .error "Provide exactly one audio source (audio URL or file ID)" := by
  constructor
  · have h := create_body_exactly_one_source.1 cfgUrlOnly none jsonParseUnused
      [("model", .str "stt-async-v3"), ("audio_url", .str "https://example.com/a.wav")] rfl
    rcases h with ⟨h1, h2⟩ | ⟨h1, h2⟩
    · exact ⟨_, rfl, h1, h2⟩
    · exact absurd h1 (by decide)
  · exact create_body_exactly_one_source.2 none none (Or.inr ⟨rfl, rfl⟩)

theorem parseStructuredContext_not_arr (jp : String → Except String JValue)
    (value : JValue) (c : Option JValue)
    (h : parseStructuredContext jp value = .ok c) :
    ∀ ys, c ≠ some (.arr ys) := by
  intro ys hc
  subst hc
  rw [parseStructuredContext.eq_def] at h
  repeat' split at h
  all_goals simp at h

theorem resolveContext_not_arr (cfg : CreateConfig)
    (jp : String → Except String JValue) (c : Option JValue)
    (h : resolveContext cfg jp = .ok c) :
    ∀ ys, c ≠ some (.arr ys) := by
  intro ys hc
  subst hc
  rw [resolveContext] at h
  repeat' split at h
  · simp at h
  · simp at h
  · rename_i c2 heq
    rw [Except.ok.injEq] at h
    subst h
    exact parseStructuredContext_not_arr jp cfg.contextJson _ heq ys rfl
  · simp at h
  · simp at h

/-- C4 counterexample: an already-parsed JSON array supplied as structured
context does NOT make the operation fail; the assembly succeeds (the
context is silently dropped), contradicting the claim that every
array-valued context yields a validation error. -/
theorem structured_array_context_counterexample :
    ∃ body, assembleCreateBody cfgArrayContext none jsonParseUnused = .ok body ∧
      getField body "context" = none :=
  ⟨[("model", .str "stt-async-v3"), ("audio_url", .str "https://example.com/a.wav")],
    rfl, rfl⟩

/-- C4 (amended): a structured context supplied as a string that parses to
a JSON array fails with the validation error whose message distinguishes
that the context must be an object, not an array or primitive; an
already-parsed array value is dropped without error and without a context
field; and no assembled body ever carries an array as its `context`. -/
theorem structured_context_amended :
    (∀ (cfg : CreateConfig) (upl : Option JValue) (jp : String → Except String JValue)
       (s : String) (xs : List JValue) (a : Option String) (f : Option JValue),
      isNonEmptyString (.str cfg.model) = true →
      resolveAudioSource cfg (uploadFile upl) = .ok (a, f) →
      checkAudio a f = .ok () →
      cfg.contextMode = "structured" →
      cfg.contextJson = .str s →
      jsTrim s ≠ "" →
      jp (jsTrim s) = .ok (.arr xs) →
      assembleCreateBody cfg upl jp =
        .error "Invalid context: Context must be a JSON object, not an array or primitive" ∧
      ∃ pre post,
        ("Invalid context: Context must be a JSON object, not an array or primitive" : String)
          = pre ++ "must be a JSON object" ++ post) ∧
    (∀ (cfg : CreateConfig) (upl : Option JValue) (jp : String → Except String JValue)
       (xs : List JValue) (a : Option String) (f : Option JValue) (t : Option JValue),
      isNonEmptyString (.str cfg.model) = true →
      resolveAudioSource cfg (uploadFile upl) = .ok (a, f) →
      checkAudio a f = .ok () →
      cfg.contextMode = "structured" →
      cfg.contextJson = .arr xs →
      resolveTranslation cfg = .ok t →
      ∃ body, assembleCreateBody cfg upl jp = .ok body ∧
        getField body "context" = none) ∧
    (∀ (cfg : CreateConfig) (upl : Option JValue) (jp : String → Except String JValue)
       (body : List (String × JValue)) (v : JValue),
      assembleCreateBody cfg upl jp = .ok body →
      getField body "context" = some v → ∀ xs, v ≠ .arr xs) := by
  refine ⟨?_, ?_, ?_⟩
  · intro cfg upl jp s xs a f hm hra hchk hmode hjson htrim hparse
    have hmode' : ¬ cfg.contextMode = "text" := by rw [hmode]; decide
    have hs : truthy (JValue.str s) = true := by
      have hne : s ≠ "" := by
        intro he
        apply htrim
        rw [he]
        rfl
      simp [truthy, hne]
    have hpsc : parseStructuredContext jp (.str s) = .error contextTypeErrorMessage := by
      rw [parseStructuredContext.eq_def, if_pos hs]
      simp [htrim, hparse]
    have hctx : resolveContext cfg jp =
        .error ("Invalid context: " ++ contextTypeErrorMessage) := by
      rw [resolveContext, if_neg hmode', if_pos hmode, hjson, hpsc]
    have hmerge : ("Invalid context: " ++ contextTypeErrorMessage : String)
        = "Invalid context: Context must be a JSON object, not an array or primitive" := by
      decide
    constructor
    · rw [assembleCreateBody, if_pos hm]
      simp only [hra, hchk, hctx, hmerge]
    · exact ⟨"Invalid context: Context ", ", not an array or primitive", by decide⟩
  · intro cfg upl jp xs a f t hm hra hchk hmode hjson htl
    have hmode' : ¬ cfg.contextMode = "text" := by rw [hmode]; decide
    have hctx : resolveContext cfg jp = .ok none := by
      rw [resolveContext, if_neg hmode', if_pos hmode, hjson]
      rfl
    refine ⟨buildCreateBody cfg a f (normalizeLanguageHints cfg.languageHints) none t,
      ?_, ?_⟩
    · rw [assembleCreateBody, if_pos hm]
      simp only [hra, hchk, hctx, htl]
    · rw [getField_buildCreateBody_context]
      rfl
  · intro cfg upl jp body v h hv xs hveq
    obtain ⟨a, f, c, t, hra, hchk, hctx, htl, hbody⟩ :=
      assembleCreateBody_ok cfg upl jp body h
    subst hbody
    rw [getField_buildCreateBody_context] at hv
    subst hveq
    have hnoarr := resolveContext_not_arr cfg jp c hctx
    match c, hnoarr with
    | none, _ => simp [contextField, getField] at hv
    | some .null, _ => simp [contextField, getField] at hv
    | some (.bool b), _ => simp [contextField, getField] at hv
    | some (.num n), _ => simp [contextField, getField] at hv
    | some (.str s), _ =>
        rw [contextField, getField_condField] at hv
        by_cases hb : isNonEmptyString (.str s) = true <;> simp [hb] at hv
    | some (.obj fobj), _ =>
        rw [contextField, getField_condField] at hv
        by_cases hb : (fobj.length != 0) = true <;> simp [hb] at hv
    | some (.arr ys), hno =>
        exact hno ys rfl

/-- C4 witness: the string `"[1,2,3]"` fails assembly with the
distinguishing validation error, and the parsed-array value assembles
without a context field. -/
theorem structured_context_amended_witness :
    assembleCreateBody cfgStrArrayContext none jsonParseArr =
      .error "Invalid context: Context must be a JSON object, not an array or primitive" ∧
    ∃ body, assembleCreateBody cfgArrayContext none jsonParseUnused = .ok body ∧
      getField body "context" = none := by
  constructor
  · exact (structured_context_amended.1 cfgStrArrayContext none jsonParseArr
      "[1,2,3]" [.num 1, .num 2, .num 3] (some "https://example.com/a.wav") none
      rfl rfl rfl rfl rfl (by decide) rfl).1
  · exact structured_context_amended.2.1 cfgArrayContext none jsonParseUnused
      [.num 1, .num 2, .num 3] (some "https://example.com/a.wav") none none
      rfl rfl rfl rfl rfl rfl

end Soniox

